import Mathlib

/-!
Verification of the admission-and-lifecycle core of the nutrition-health
backend (`src/main.go`).  The repository ships only `main.go`; the rate
limiter (`internal/middleware.DistributedRateLimiter`) and service cleanup
(`internal/services`) are referenced but their sources are absent, so those
parts are modelled from the specification, as marked on each definition.
`main.go` itself — command-line dispatch, middleware registration order and
the graceful-shutdown sequence — is embedded directly from the source.
-/

set_option autoImplicit false

namespace KiroNutrition

/-! ## Rate limiter model

Modelled from the spec (§4.1): the shared counter store maps a
(identity, window-start) pair to an integer count, incremented atomically
with expiry; `middleware.DistributedRateLimiter` is not under `src/`. -/

/-- Modelled from the spec: the shared counter store, a key-value map from
(identity, window start) to the request count for that fixed window.
TTL expiry is not modelled: claims quantify within windows, where the spec
says the key either exists with its count or is absent (count 0). -/
def Store : Type := List (String × Nat × Nat)

/-- Modelled from the spec: reading a window counter; an absent key reads
as count 0 (first request in a window creates it with count 1). -/
def storeGet : Store → String → Nat → Nat
  | [], _, _ => 0
  | (i, w, c) :: rest, ident, ws =>
      if i = ident ∧ w = ws then c else storeGet rest ident ws

/-- Modelled from the spec: the store's atomic increment-with-expiry.
If the key is new it is created with count 1, otherwise the count is
incremented; the new count is returned together with the updated store. -/
def incrWithExpiry : Store → String → Nat → Nat × Store
  | [], ident, ws => (1, [(ident, ws, 1)])
  | (i, w, c) :: rest, ident, ws =>
      if i = ident ∧ w = ws then (c + 1, (i, w, c + 1) :: rest)
      else ((incrWithExpiry rest ident ws).1,
            (i, w, c) :: (incrWithExpiry rest ident ws).2)

/-- Modelled from the spec: the window start is request time truncated to
`windowDuration` boundaries (fixed-window, not sliding). -/
def windowStart (window t : Nat) : Nat := t / window * window

/-- Modelled from the spec: the window key combines the identity with the
truncated window start. -/
def windowKey (ident : String) (window t : Nat) : String × Nat :=
  (ident, windowStart window t)

/-- Modelled from the spec: result of `Admit(identity, limit, windowDuration)`:
`(allowed, remaining, resetAt)`. -/
structure AdmitResult where
  allowed : Bool
  remaining : Int
  resetAt : Nat
deriving DecidableEq, Repr

/-- Modelled from the spec: `Admit` issues one atomic increment against the
store for the current window key and decides
`allowed = (count ≤ limit)`, `remaining = max(0, limit - count)`,
`resetAt` = the window boundary. -/
def Admit (s : Store) (ident : String) (limit : Int) (window t : Nat) :
    AdmitResult × Store :=
  let ws := windowStart window t
  let r := incrWithExpiry s ident ws
  ({ allowed := decide ((r.1 : Int) ≤ limit),
     remaining := max 0 (limit - (r.1 : Int)),
     resetAt := ws + window }, r.2)

/-- The admit decision determined by a window count alone. -/
def mkResult (limit : Int) (window W count : Nat) : AdmitResult :=
  { allowed := decide ((count : Int) ≤ limit),
    remaining := max 0 (limit - (count : Int)),
    resetAt := W + window }

/-- Sequential requests from one identity: each request is admitted against
the store state left by the previous one. -/
def runRequests (s : Store) (ident : String) (limit : Int) (window : Nat) :
    List Nat → List AdmitResult × Store
  | [] => ([], s)
  | t :: ts =>
      let p := Admit s ident limit window t
      let q := runRequests p.2 ident limit window ts
      (p.1 :: q.1, q.2)

/-- Number of admitted requests in a result sequence. -/
def countAllowed (rs : List AdmitResult) : Nat :=
  (rs.filter fun r => r.allowed).length

theorem incrWithExpiry_fst (s : Store) (ident : String) (ws : Nat) :
    (incrWithExpiry s ident ws).1 = storeGet s ident ws + 1 := by
  induction s with
  | nil => rfl
  | cons hd tl ih =>
      obtain ⟨i, w, c⟩ := hd
      by_cases h : i = ident ∧ w = ws
      · simp [incrWithExpiry, storeGet, h]
      · simp [incrWithExpiry, storeGet, h, ih]

theorem storeGet_incrWithExpiry (s : Store) (ident : String) (ws : Nat) :
    storeGet (incrWithExpiry s ident ws).2 ident ws = storeGet s ident ws + 1 := by
  induction s with
  | nil => simp [incrWithExpiry, storeGet]
  | cons hd tl ih =>
      obtain ⟨i, w, c⟩ := hd
      by_cases h : i = ident ∧ w = ws
      · simp [incrWithExpiry, storeGet, h]
      · simp [incrWithExpiry, storeGet, h, ih]

theorem Admit_fst (s : Store) (ident : String) (limit : Int) (window t : Nat) :
    (Admit s ident limit window t).1 =
      mkResult limit window (windowStart window t)
        (storeGet s ident (windowStart window t) + 1) := by
  simp [Admit, mkResult, incrWithExpiry_fst]

theorem Admit_snd_storeGet (s : Store) (ident : String) (limit : Int)
    (window t : Nat) :
    storeGet (Admit s ident limit window t).2 ident (windowStart window t) =
      storeGet s ident (windowStart window t) + 1 := by
  simp [Admit, storeGet_incrWithExpiry]

theorem runRequests_closed_form (ident : String) (limit : Int) (window W : Nat)
    (times : List Nat) :
    ∀ s : Store, (∀ t ∈ times, windowStart window t = W) →
    (runRequests s ident limit window times).1 =
      (List.range times.length).map
        (fun i => mkResult limit window W (storeGet s ident W + i + 1)) := by
  induction times with
  | nil => intro s _; rfl
  | cons t ts ih =>
      intro s hW
      have hWt : windowStart window t = W := hW t (by simp)
      have hWts : ∀ u ∈ ts, windowStart window u = W := by
        intro u hu; exact hW u (by simp [hu])
      have hhead : (Admit s ident limit window t).1 =
          mkResult limit window W (storeGet s ident W + 1) := by
        rw [Admit_fst, hWt]
      have hstore : storeGet (Admit s ident limit window t).2 ident W =
          storeGet s ident W + 1 := by
        have := Admit_snd_storeGet s ident limit window t
        rwa [hWt] at this
      simp only [runRequests, List.length_cons, List.range_succ_eq_map,
        List.map_cons, List.map_map]
      rw [ih _ hWts, hstore, hhead]
      simp only [Nat.add_zero]
      congr 1
      apply List.map_congr_left
      intro i _
      simp only [Function.comp_apply, Nat.succ_eq_add_one]
      congr 1
      omega

theorem countAllowed_range_map (L window W N c : Nat) :
    countAllowed ((List.range N).map fun i =>
        mkResult (L : Int) window W (c + i + 1)) = min N (L - c) := by
  induction N with
  | zero => simp [countAllowed]
  | succ n ih =>
      rw [List.range_succ]
      simp only [List.map_append, List.map_cons, List.map_nil]
      unfold countAllowed at ih ⊢
      rw [List.filter_append, List.length_append, ih]
      have hfilter : (List.filter (fun r => r.allowed)
          [mkResult (L : Int) window W (c + n + 1)]).length =
          if c + n + 1 ≤ L then 1 else 0 := by
        by_cases h : c + n + 1 ≤ L
        · have h2 : ((c : Int) + (n : Int) + 1 ≤ (L : Int)) := by omega
          simp [mkResult, List.filter_cons, h2, h]
        · have h2 : ¬ ((c : Int) + (n : Int) + 1 ≤ (L : Int)) := by omega
          simp [mkResult, List.filter_cons, h2, h]
      rw [hfilter]
      split <;> omega

/-- C1: for every sequence of N requests from the same identity within a
single fixed window with quota L, the rate limiter admits exactly
min(N, L) of them, and admissions are monotone in time: once a request is
denied within a window, every later request in the same window is also
denied. -/
theorem c1_fixed_window_min_monotone (ident : String) (L window W : Nat)
    (times : List Nat) (hW : ∀ t ∈ times, windowStart window t = W) :
    countAllowed (runRequests [] ident (L : Int) window times).1 =
      min times.length L ∧
    ∀ i j : Nat, i ≤ j → ∀ ri rj : AdmitResult,
      ((runRequests [] ident (L : Int) window times).1)[i]? = some ri →
      ((runRequests [] ident (L : Int) window times).1)[j]? = some rj →
      ri.allowed = false → rj.allowed = false := by
  have hform := runRequests_closed_form ident (L : Int) window W times [] hW
  have h0 : storeGet ([] : Store) ident W = 0 := rfl
  rw [h0] at hform
  constructor
  · rw [hform, countAllowed_range_map]
    omega
  · intro i j hij ri rj hri hrj hfalse
    rw [hform] at hri hrj
    have hj' : j < times.length := by
      by_contra hge
      push_neg at hge
      rw [List.getElem?_eq_none (by simpa using hge)] at hrj
      exact Option.noConfusion hrj
    have hi' : i < times.length := Nat.lt_of_le_of_lt hij hj'
    simp only [List.getElem?_map, List.getElem?_range hi', Option.map_some'] at hri
    simp only [List.getElem?_map, List.getElem?_range hj', Option.map_some'] at hrj
    injection hri with hri
    injection hrj with hrj
    subst hri
    subst hrj
    simp only [mkResult, decide_eq_false_iff_not] at hfalse ⊢
    omega

/-- Witness for C1 at the spec's example scenario: quota 5, window 60,
seven requests from identity X inside one window admit exactly five. -/
theorem c1_fixed_window_min_monotone_witness :
    countAllowed (runRequests [] "X" (5 : Int) 60 [0, 10, 20, 30, 40, 50, 55]).1
      = 5 := by
  have h := c1_fixed_window_min_monotone "X" 5 60 0 [0, 10, 20, 30, 40, 50, 55]
    (by decide)
  exact h.1.trans (by decide)

/-- C2: for every call Admit(identity, limit, windowDuration), with count
the value returned by the store's atomic increment for the current window
key, allowed = (count ≤ limit) and remaining = max(0, limit - count); in
particular every request is rejected when limit ≤ 0. -/
theorem c2_admit_count_formula (s : Store) (ident : String) (limit : Int)
    (window t : Nat) :
    ((Admit s ident limit window t).1.allowed = true ↔
      ((storeGet s ident (windowStart window t) + 1 : Nat) : Int) ≤ limit) ∧
    (Admit s ident limit window t).1.remaining =
      max 0 (limit - ((storeGet s ident (windowStart window t) + 1 : Nat) : Int)) ∧
    (limit ≤ 0 → (Admit s ident limit window t).1.allowed = false) := by
  rw [Admit_fst]
  refine ⟨?_, rfl, ?_⟩
  · simp [mkResult]
  · intro hle
    simp only [mkResult, decide_eq_false_iff_not]
    omega

/-- Witness for C2: with an empty store and limit 0, the first request is
rejected. -/
theorem c2_admit_count_formula_witness :
    (Admit [] "X" (0 : Int) 60 0).1.allowed = false :=
  (c2_admit_count_formula [] "X" 0 60 0).2.2 (by decide)

/-- C4: the window key truncates request time to windowDuration boundaries
combined with identity, so a request at time t and one at t + windowDuration
fall into independent buckets: the second may be admitted (when its bucket
is fresh and the quota is positive) even if the first window exhausted the
quota. -/
theorem c4_window_rollover_independent (s : Store) (ident : String) (L : Int)
    (window t : Nat) (hw : 0 < window) (hL : 1 ≤ L)
    (hfresh : storeGet s ident (windowStart window (t + window)) = 0) :
    windowKey ident window (t + window) ≠ windowKey ident window t ∧
    (Admit s ident L window (t + window)).1.allowed = true := by
  constructor
  · have hshift : windowStart window (t + window) = windowStart window t + window := by
      unfold windowStart
      rw [Nat.add_div_right _ hw]
      ring
    intro hkey
    have := congrArg Prod.snd hkey
    simp only [windowKey] at this
    omega
  · rw [Admit_fst, hfresh]
    simp [mkResult]
    omega

/-- Witness for C4: identity X exhausted window [0,60) with 7 requests;
at time 65 the key differs and the request is admitted. -/
theorem c4_window_rollover_independent_witness :
    windowKey "X" 60 65 ≠ windowKey "X" 60 5 ∧
    (Admit [("X", 0, 7)] "X" (5 : Int) 60 65).1.allowed = true :=
  c4_window_rollover_independent [("X", 0, 7)] "X" 5 60 5 (by decide) (by decide)
    (by decide)

/-! ## Degraded-mode (fail-open) admission

Modelled from the spec (§4.1, §9): the store call returns either a count or
`Unavailable`; on failure the limiter fails OPEN — the request is admitted,
the failure is logged and not surfaced to the caller. -/

/-- Modelled from the spec: the two-variant result of the store call. -/
inductive StoreReply where
  | ok (count : Nat)
  | unavailable
deriving DecidableEq, Repr

/-- Admission outcome together with its side effects on logs and on the
caller-visible error channel. -/
structure AdmitOutcome where
  result : AdmitResult
  failureLogged : Bool
  errorSurfaced : Bool
deriving DecidableEq, Repr

/-- Modelled from the spec: admission decision from a store reply.  On
`ok count` the fixed-window formula applies; on `unavailable` the request
is admitted, the failure logged and not surfaced.  The spec leaves
`remaining`/`resetAt` of the degraded path unspecified; the values chosen
here are asserted by no theorem. -/
def admitOnReply (reply : StoreReply) (limit : Int) (window t : Nat) :
    AdmitOutcome :=
  match reply with
  | StoreReply.ok count =>
      ⟨mkResult limit window (windowStart window t) count, false, false⟩
  | StoreReply.unavailable =>
      ⟨{ allowed := true, remaining := max 0 limit,
         resetAt := windowStart window t + window }, true, false⟩

/-! ## Middleware chain (src/main.go lines 77–98)

`main` registers, in order: Recover, CorrelationID, StructuredLogger,
ErrorLogger, AuditLogger, Security, CORS, then — only when the Redis client
is non-nil — DistributedRateLimiter, then Compression. -/

/-- The middleware stages registered by `main` via `e.Use`. -/
inductive Mw where
  | recover
  | correlationID
  | structuredLogger
  | errorLogger
  | auditLogger
  | security
  | cors
  | rateLimiter
  | compression
deriving DecidableEq, Repr

/-- The `e.Use` registration order of `main`, parameterised by whether the
Redis client initialised (a nil client skips the rate limiter block). -/
def middlewareChain (redisAvailable : Bool) : List Mw :=
  [Mw.recover, Mw.correlationID, Mw.structuredLogger, Mw.errorLogger,
   Mw.auditLogger, Mw.security, Mw.cors] ++
  (if redisAvailable then [Mw.rateLimiter] else []) ++
  [Mw.compression]

/-- C3: if the store call fails, the request is admitted (fail-open), the
failure is logged but never surfaced to the caller — so with the store
unreachable every request is admitted; and when the store client is absent
at startup, `main` installs no rate-limiting middleware at all. -/
theorem c3_fail_open (limit : Int) (window t : Nat) :
    (admitOnReply StoreReply.unavailable limit window t).result.allowed = true ∧
    (admitOnReply StoreReply.unavailable limit window t).failureLogged = true ∧
    (admitOnReply StoreReply.unavailable limit window t).errorSurfaced = false ∧
    Mw.rateLimiter ∉ middlewareChain false := by
  refine ⟨rfl, rfl, rfl, ?_⟩
  decide

/-- C9 counterexample: the correlation middleware is not the first stage —
`main` registers `Recover` before `CorrelationID` — and when Redis is
unavailable the chain contains no rate limiter, so the claimed chain does
not describe every request. -/
theorem c9_counterexample :
    (middlewareChain true).head? = some Mw.recover ∧
    Mw.recover ≠ Mw.correlationID ∧
    Mw.rateLimiter ∉ middlewareChain false := by
  decide

/-- C9 (amended): the stages named by the claim occur in the claimed
relative order (as a subsequence of the registered chain, which interleaves
Recover, ErrorLogger and AuditLogger), the rate limiter being present
exactly when the store client is available; the correlation token is
assigned before every other middleware except the panic-recovery wrapper,
which is registered first. -/
theorem c9_middleware_order :
    List.Sublist [Mw.correlationID, Mw.structuredLogger, Mw.security, Mw.cors,
      Mw.rateLimiter, Mw.compression] (middlewareChain true) ∧
    List.Sublist [Mw.correlationID, Mw.structuredLogger, Mw.security, Mw.cors,
      Mw.compression] (middlewareChain false) ∧
    (middlewareChain true).head? = some Mw.recover ∧
    (middlewareChain true)[1]? = some Mw.correlationID ∧
    (middlewareChain false)[1]? = some Mw.correlationID ∧
    (Mw.rateLimiter ∈ middlewareChain true ∧
      Mw.rateLimiter ∉ middlewareChain false) := by
  decide

/-! ## Graceful shutdown (src/main.go lines 131–151)

After `e.Start` is launched, `main` blocks on a buffered signal channel
(`make(chan os.Signal, 1)` with SIGINT/SIGTERM notification), then runs the
straight-line sequence: log start of shutdown; `services.Cleanup()` —
a failure is logged with `log.Printf("⚠️ ...")` and execution continues;
`e.Shutdown(ctx)` with a 10-second context — a failure exits via
`log.Fatalf("❌ Forced shutdown: ...")`; otherwise log
`"✅ Server stopped gracefully"` and return. -/

/-- Observable events of the shutdown path of `main`. -/
inductive Event where
  | signalReceived
  | shutdownLogStarted
  | cleanupStarted
  | cleanupErrorLogged
  | drainStarted
  | drainTimedOutFatal
  | serverStoppedLog
deriving DecidableEq, Repr

/-- Log levels of the Go `log` calls used on the shutdown path. -/
inductive LogLevel where
  | info
  | warn
  | fatal
deriving DecidableEq, Repr

/-- The level of the `e.Shutdown` failure log: `log.Fatalf` (fatal, then
`os.Exit(1)`), src/main.go line 147. -/
def timeoutLogLevel : LogLevel := LogLevel.fatal

/-- The level of the `services.Cleanup` failure log: `log.Printf` with a
warning marker, src/main.go line 143. -/
def cleanupErrorLogLevel : LogLevel := LogLevel.warn

/-- The event trace of `main` from the receipt of the termination signal,
as a function of whether `services.Cleanup` fails and whether
`e.Shutdown` fails (times out). -/
def shutdownSequence (cleanupFails drainTimesOut : Bool) : List Event :=
  [Event.shutdownLogStarted, Event.cleanupStarted] ++
  (if cleanupFails then [Event.cleanupErrorLogged] else []) ++
  [Event.drainStarted] ++
  (if drainTimesOut then [Event.drainTimedOutFatal] else [Event.serverStoppedLog])

/-- The whole post-startup behaviour of `main`: it blocks on the signal
channel (no trace when no signal ever arrives); once at least one signal is
pending it runs the shutdown sequence exactly once — further pending
signals are never read from the channel. -/
def mainTrace (pendingSignals : Nat) (cleanupFails drainTimesOut : Bool) :
    Option (List Event) :=
  if pendingSignals = 0 then none
  else some (Event.signalReceived :: shutdownSequence cleanupFails drainTimesOut)

/-- The process exit code of the shutdown path: `log.Fatalf` exits with 1
when `e.Shutdown` fails; a cleanup failure does not change it. -/
def exitCode (cleanupFails drainTimesOut : Bool) : Nat :=
  if drainTimesOut then 1 else 0

/-- Modelled from the spec: `services.Cleanup` runs every cleanup hook even
when some fail, logging each failure (best-effort, not transactional);
`internal/services` is not under `src/`.  Each hook is represented by
whether it succeeds; returns (hooks run, failures logged). -/
def runCleanupHooks : List Bool → Nat × Nat
  | [] => (0, 0)
  | ok :: rest =>
      ((runCleanupHooks rest).1 + 1,
       (runCleanupHooks rest).2 + (if ok then 0 else 1))

theorem runCleanupHooks_runs_all (hooks : List Bool) :
    (runCleanupHooks hooks).1 = hooks.length ∧
    (runCleanupHooks hooks).2 = (hooks.filter fun b => !b).length := by
  induction hooks with
  | nil => exact ⟨rfl, rfl⟩
  | cons ok rest ih =>
      cases ok <;> simp [runCleanupHooks, List.filter_cons, ih.1, ih.2]

/-- C5 counterexample: in the shutdown run `main` calls `services.Cleanup`
before `e.Shutdown`, so the listener drain does not precede the cleanup
hooks — the cleanup event occurs strictly before the drain event. -/
theorem c5_counterexample :
    ¬ ((shutdownSequence false false).indexOf Event.drainStarted <
        (shutdownSequence false false).indexOf Event.cleanupStarted) ∧
    Event.drainStarted ∈ shutdownSequence false false ∧
    Event.cleanupStarted ∈ shutdownSequence false false := by
  decide

/-- C5 (amended): in every shutdown run the service-level cleanup hooks run
(step 3) strictly before the listener drain (step 2) begins; both steps
occur in every run. -/
theorem c5_cleanup_before_drain (cleanupFails drainTimesOut : Bool) :
    (shutdownSequence cleanupFails drainTimesOut).indexOf Event.cleanupStarted <
      (shutdownSequence cleanupFails drainTimesOut).indexOf Event.drainStarted ∧
    Event.cleanupStarted ∈ shutdownSequence cleanupFails drainTimesOut ∧
    Event.drainStarted ∈ shutdownSequence cleanupFails drainTimesOut := by
  cases cleanupFails <;> cases drainTimesOut <;> decide

/-- C6: any positive number of pending SIGINT/SIGTERM signals triggers the
shutdown sequence exactly once: the trace is independent of how many
signals arrive, and it contains exactly one signal receipt, one cleanup
run and one drain. -/
theorem c6_shutdown_once (n : Nat) (cleanupFails drainTimesOut : Bool)
    (hn : 0 < n) :
    mainTrace n cleanupFails drainTimesOut =
      mainTrace 1 cleanupFails drainTimesOut ∧
    ∃ tr : List Event, mainTrace n cleanupFails drainTimesOut = some tr ∧
      tr.count Event.signalReceived = 1 ∧
      tr.count Event.cleanupStarted = 1 ∧
      tr.count Event.drainStarted = 1 := by
  have hne : n ≠ 0 := Nat.pos_iff_ne_zero.mp hn
  constructor
  · simp [mainTrace, hne]
  · refine ⟨Event.signalReceived ::
        shutdownSequence cleanupFails drainTimesOut, ?_, ?_⟩
    · simp [mainTrace, hne]
    · cases cleanupFails <;> cases drainTimesOut <;> decide

/-- Witness for C6: two pending signals yield the same single-run trace as
one. -/
theorem c6_shutdown_once_witness :
    mainTrace 2 false false = mainTrace 1 false false :=
  (c6_shutdown_once 2 false false (by decide)).1

/-- C7 counterexample: when `e.Shutdown` fails at the 10-second deadline,
`main` logs via `log.Fatalf` — fatal, not a warning — the process exits
with code 1, and the graceful-stop message is never reached. -/
theorem c7_counterexample :
    timeoutLogLevel ≠ LogLevel.warn ∧
    timeoutLogLevel = LogLevel.fatal ∧
    exitCode false true = 1 ∧
    Event.serverStoppedLog ∉ shutdownSequence false true := by
  decide

/-- C7 (amended): if draining does not complete within the deadline the
process is force-terminated — the failure is logged at fatal level (not as
a warning) and the process exits with code 1 without the graceful-stop
message; the cleanup hooks are not skipped only because they already ran
before the drain. -/
theorem c7_drain_timeout_fatal (cleanupFails : Bool) :
    Event.drainTimedOutFatal ∈ shutdownSequence cleanupFails true ∧
    Event.serverStoppedLog ∉ shutdownSequence cleanupFails true ∧
    Event.cleanupStarted ∈ shutdownSequence cleanupFails true ∧
    (shutdownSequence cleanupFails true).indexOf Event.cleanupStarted <
      (shutdownSequence cleanupFails true).indexOf Event.drainStarted ∧
    timeoutLogLevel = LogLevel.fatal ∧
    exitCode cleanupFails true = 1 := by
  cases cleanupFails <;> decide

/-- C8: a cleanup failure during shutdown is logged at warning level and
does not abort the remaining shutdown steps — the drain still runs, a
clean drain still reaches the graceful-stop message, the exit code stays 0,
and (modelled from the spec) `services.Cleanup` runs every hook even when
some fail, logging each failure. -/
theorem c8_cleanup_failure_nonfatal :
    (∀ hooks : List Bool, (runCleanupHooks hooks).1 = hooks.length ∧
      (runCleanupHooks hooks).2 = (hooks.filter fun b => !b).length) ∧
    (∀ drainTimesOut : Bool,
      Event.cleanupErrorLogged ∈ shutdownSequence true drainTimesOut ∧
      Event.drainStarted ∈ shutdownSequence true drainTimesOut) ∧
    Event.serverStoppedLog ∈ shutdownSequence true false ∧
    cleanupErrorLogLevel = LogLevel.warn ∧
    exitCode true false = 0 := by
  refine ⟨runCleanupHooks_runs_all, ?_, ?_, rfl, rfl⟩
  · intro dt
    cases dt <;> exact (by decide)
  · decide

/-! ## Command-line dispatch (src/main.go lines 30–43, 153–212)

`main` inspects `os.Args[1]` (only when `len(os.Args) > 1`): `-migrate`/
`--migrate` runs `runMigrations` and returns; `-seed`/`--seed` runs
`runSeeding` and returns; `-reset`/`--reset` runs `runReset` (which removes
the database file, then runs migrations and seeding) and returns; any other
invocation falls through to the server startup path (config, database,
Redis, services, routes, HTTP listener). -/

/-- The run mode selected by `main`'s switch on the first argument. -/
inductive RunMode where
  | migrate
  | seed
  | reset
  | server
deriving DecidableEq, Repr

/-- `main`'s dispatch on `os.Args` (the head of the list is the program
name, as in Go). -/
def selectMode (args : List String) : RunMode :=
  match args with
  | _ :: arg :: _ =>
      if arg = "-migrate" ∨ arg = "--migrate" then RunMode.migrate
      else if arg = "-seed" ∨ arg = "--seed" then RunMode.seed
      else if arg = "-reset" ∨ arg = "--reset" then RunMode.reset
      else RunMode.server
  | _ => RunMode.server

/-- Top-level actions of `main` and of the maintenance routines. -/
inductive Action where
  | runMigrationsAction
  | runSeedingAction
  | removeDatabase
  | initServices
  | registerRoutes
  | startServer
deriving DecidableEq, Repr

/-- The sequence of top-level actions `main` performs for a given argument
vector: maintenance modes run their routine and return; the server mode
initialises services, registers routes and starts the listener. -/
def mainActions (args : List String) : List Action :=
  match selectMode args with
  | RunMode.migrate => [Action.runMigrationsAction]
  | RunMode.seed => [Action.runSeedingAction]
  | RunMode.reset =>
      [Action.removeDatabase, Action.runMigrationsAction,
       Action.runSeedingAction]
  | RunMode.server =>
      [Action.initServices, Action.registerRoutes, Action.startServer]

/-- C10: a first argument of -migrate, --migrate, -seed, --seed, -reset or
--reset runs only the corresponding database maintenance routine —
never initialising services, registering routes or starting the server —
and every other invocation takes the server startup path. -/
theorem c10_cli_dispatch (prog arg : String) (rest : List String) :
    ((arg = "-migrate" ∨ arg = "--migrate") →
      mainActions (prog :: arg :: rest) = [Action.runMigrationsAction]) ∧
    ((arg = "-seed" ∨ arg = "--seed") →
      mainActions (prog :: arg :: rest) = [Action.runSeedingAction]) ∧
    ((arg = "-reset" ∨ arg = "--reset") →
      mainActions (prog :: arg :: rest) =
        [Action.removeDatabase, Action.runMigrationsAction,
         Action.runSeedingAction]) ∧
    (selectMode (prog :: arg :: rest) ≠ RunMode.server →
      Action.startServer ∉ mainActions (prog :: arg :: rest) ∧
      Action.initServices ∉ mainActions (prog :: arg :: rest) ∧
      Action.registerRoutes ∉ mainActions (prog :: arg :: rest)) ∧
    (arg ∉ ["-migrate", "--migrate", "-seed", "--seed", "-reset", "--reset"] →
      mainActions (prog :: arg :: rest) =
        [Action.initServices, Action.registerRoutes, Action.startServer]) ∧
    mainActions [prog] =
      [Action.initServices, Action.registerRoutes, Action.startServer] := by
  refine ⟨?_, ?_, ?_, ?_, ?_, rfl⟩
  · rintro (rfl | rfl) <;> rfl
  · rintro (rfl | rfl) <;> rfl
  · rintro (rfl | rfl) <;> rfl
  · intro hmode
    unfold mainActions
    cases hsel : selectMode (prog :: arg :: rest) <;> simp_all
  · intro hnot
    simp only [List.mem_cons, List.not_mem_nil, or_false] at hnot
    push_neg at hnot
    obtain ⟨h1, h2, h3, h4, h5, h6⟩ := hnot
    unfold mainActions selectMode
    simp [h1, h2, h3, h4, h5, h6]

/-- Witness for C10: `app -migrate` runs exactly the migration routine, and
`app serve` starts the server. -/
theorem c10_cli_dispatch_witness :
    mainActions ["app", "-migrate"] = [Action.runMigrationsAction] ∧
    mainActions ["app", "serve"] =
      [Action.initServices, Action.registerRoutes, Action.startServer] :=
  ⟨(c10_cli_dispatch "app" "-migrate" []).1 (Or.inl rfl),
   (c10_cli_dispatch "app" "serve" []).2.2.2.2.1 (by decide)⟩

end KiroNutrition
